import Mathlib

/-!
Shallow embedding of the semantic ingestion pipeline of the `eduscale`
repository (tabular classification, entity resolution, free-form feedback
analysis, normalization, and orchestration), together with theorems that
settle the specification claims about it.

Python floats are modelled as rationals (`ℚ`); Python dicts are modelled as
association lists in insertion order (`List (key × value)`, lookup finds the
first binding, and keys are unique in every dict the code builds); external
collaborators (the embedding model, cosine similarity, `np.exp`, `pandas`
column casts, the SHA-256 primitive is implemented concretely) are passed in
as explicit function parameters where noted.
-/

set_option maxRecDepth 4000

namespace EduScale

/-- Models Python `str.lower` on the character ranges used by this code base
(ASCII Latin and the basic Cyrillic block, which is all that
`entity_resolver.py` manipulates). -/
def pyLowerChar (c : Char) : Char :=
  if 'A' ≤ c ∧ c ≤ 'Z' then Char.ofNat (c.toNat + 32)
  else if 'А' ≤ c ∧ c ≤ 'Я' then Char.ofNat (c.toNat + 32)
  else if c = 'Ё' then 'ё'
  else c

/-- Models Python `str.lower` on a whole string. -/
def pyLower (s : String) : String :=
  String.mk (s.toList.map pyLowerChar)

/-- Models the Python regex class `\s` on the whitespace characters that occur
in this code base. -/
def pySpace (c : Char) : Bool :=
  c = ' ' ∨ c = '\t' ∨ c = '\n' ∨ c = '\r'

/-- Models Python `str.split()` with no argument: split on whitespace runs and
drop empty pieces. -/
def pySplit (s : String) : List String :=
  (s.toList.splitOnP pySpace).map String.mk |>.filter (fun p => p ≠ "")

/-- Fuel-driven worker for `collapseSpaces`: each whitespace run becomes a
single space (the fuel starts at the string length, which bounds the number
of steps, keeping the recursion structural so it evaluates in the
kernel). -/
def collapseGo : Nat → List Char → List Char
  | _, [] => []
  | 0, l => l
  | fuel + 1, c :: rest =>
      if pySpace c then ' ' :: collapseGo fuel (rest.dropWhile pySpace)
      else c :: collapseGo fuel rest

/-- Collapse every maximal run of whitespace to a single space, models
`re.sub(r"\s+", " ", s)`. -/
def collapseSpaces (s : String) : String :=
  String.mk (collapseGo s.length s.toList)

/-- Models Python `str.strip()` (with the `\s` model above). -/
def pyStrip (s : String) : String :=
  String.mk (((s.toList.dropWhile pySpace).reverse.dropWhile pySpace).reverse)

/-- Models the Python substring test `needle in hay` for strings. -/
def containsSub (hay needle : String) : Bool :=
  go needle.toList hay.toList
where
  go (needle : List Char) : List Char → Bool
    | [] => needle.isEmpty
    | c :: rest => needle.isPrefixOf (c :: rest) || go needle rest

/-- Inner cells of one row of the Levenshtein dynamic-programming table:
`cLeft` is the cell just computed to the left, the second list is the
remaining characters of `b`, the third the previous row starting at the
diagonal position. -/
def levCells (x : Char) : Nat → List Char → List Nat → List Nat
  | _, [], _ => []
  | cLeft, y :: ys, pDiag :: pRest =>
      let pUp := pRest.headD 0
      let cost := if x = y then 0 else 1
      let c := min (cLeft + 1) (min (pUp + 1) (pDiag + cost))
      c :: levCells x c ys pRest
  | _, _ :: _, [] => []

/-- One row of the Levenshtein table for source character `x`. -/
def levRow (x : Char) (ys : List Char) (prev : List Nat) : List Nat :=
  let c0 := prev.headD 0 + 1
  c0 :: levCells x c0 ys prev

/-- Levenshtein edit distance, the contract of the `Levenshtein.distance`
library call used by `_fuzzy_match` (computed with the classic row-by-row
dynamic program). -/
def levenshtein_distance (a b : String) : Nat :=
  let ys := b.toList
  let last := a.toList.foldl (fun prev x => levRow x ys prev) (List.range (ys.length + 1))
  last.getLastD 0

/-- UTF-8 encoding of one character, models Python `str.encode()` per char. -/
def utf8Char (c : Char) : List Nat :=
  let n := c.toNat
  if n < 0x80 then [n]
  else if n < 0x800 then
    [0xC0 ||| (n >>> 6), 0x80 ||| (n &&& 0x3F)]
  else if n < 0x10000 then
    [0xE0 ||| (n >>> 12), 0x80 ||| ((n >>> 6) &&& 0x3F), 0x80 ||| (n &&& 0x3F)]
  else
    [0xF0 ||| (n >>> 18), 0x80 ||| ((n >>> 12) &&& 0x3F),
     0x80 ||| ((n >>> 6) &&& 0x3F), 0x80 ||| (n &&& 0x3F)]

/-- UTF-8 bytes of a string, models Python `str.encode()`. -/
def utf8Bytes (s : String) : List Nat :=
  s.toList.flatMap utf8Char

/-- Right rotation of a 32-bit word held in a `Nat`. -/
def rotr32 (n x : Nat) : Nat :=
  ((x >>> n) ||| (x <<< (32 - n))) % 4294967296

/-- SHA-256 round constants (decimal). -/
def sha256K : List Nat :=
  [1116352408, 1899447441, 3049323471, 3921009573, 961987163, 1508970993,
   2453635748, 2870763221, 3624381080, 310598401, 607225278, 1426881987,
   1925078388, 2162078206, 2614888103, 3248222580, 3835390401, 4022224774,
   264347078, 604807628, 770255983, 1249150122, 1555081692, 1996064986,
   2554220882, 2821834349, 2952996808, 3210313671, 3336571891, 3584528711,
   113926993, 338241895, 666307205, 773529912, 1294757372, 1396182291,
   1695183700, 1986661051, 2177026350, 2456956037, 2730485921, 2820302411,
   3259730800, 3345764771, 3516065817, 3600352804, 4094571909, 275423344,
   430227734, 506948616, 659060556, 883997877, 958139571, 1322822218,
   1537002063, 1747873779, 1955562222, 2024104815, 2227730452, 2361852424,
   2428436474, 2756734187, 3204031479, 3329325298]

/-- Pad a byte message per SHA-256 (append 0x80, zeros, and the 64-bit
bit-length). -/
def sha256Pad (msg : List Nat) : List Nat :=
  let l := msg.length
  let k := (119 - l % 64) % 64
  let bitLen := 8 * l
  msg ++ [0x80] ++ List.replicate k 0 ++
    [(bitLen >>> 56) % 256, (bitLen >>> 48) % 256, (bitLen >>> 40) % 256,
     (bitLen >>> 32) % 256, (bitLen >>> 24) % 256, (bitLen >>> 16) % 256,
     (bitLen >>> 8) % 256, bitLen % 256]

/-- Fuel-driven worker for `chunks64`; the fuel starts at the list length,
which bounds the number of 64-byte blocks. -/
def chunks64Go : Nat → List Nat → List (List Nat)
  | _, [] => []
  | 0, l => [l]
  | fuel + 1, l => l.take 64 :: chunks64Go fuel (l.drop 64)

/-- Split a list into 64-byte blocks. -/
def chunks64 (l : List Nat) : List (List Nat) :=
  chunks64Go l.length l

/-- Big-endian 32-bit words from bytes. -/
def bytesToWords : List Nat → List Nat
  | b0 :: b1 :: b2 :: b3 :: rest =>
      (((b0 <<< 24) ||| (b1 <<< 16)) ||| ((b2 <<< 8) ||| b3)) :: bytesToWords rest
  | _ => []

/-- Extend 16 message words to the 64-entry SHA-256 schedule. -/
def sha256Schedule (ws : List Nat) : Nat → List Nat
  | 0 => ws
  | n + 1 =>
      let ws := sha256Schedule ws n
      if ws.length < 16 then ws
      else
        let i := ws.length
        let w15 := ws.getD (i - 15) 0
        let w2 := ws.getD (i - 2) 0
        let s0 := (rotr32 7 w15) ^^^ (rotr32 18 w15) ^^^ (w15 >>> 3)
        let s1 := (rotr32 17 w2) ^^^ (rotr32 19 w2) ^^^ (w2 >>> 10)
        ws ++ [(ws.getD (i - 16) 0 + s0 + ws.getD (i - 7) 0 + s1) % 4294967296]

/-- One SHA-256 compression round. -/
def sha256Round (st : List Nat) (kw : Nat × Nat) : List Nat :=
  match st with
  | [a, b, c, d, e, f, g, h] =>
      let s1 := (rotr32 6 e) ^^^ (rotr32 11 e) ^^^ (rotr32 25 e)
      let ch := (e &&& f) ^^^ ((4294967295 - e) &&& g)
      let t1 := (h + s1 + ch + kw.1 + kw.2) % 4294967296
      let s0 := (rotr32 2 a) ^^^ (rotr32 13 a) ^^^ (rotr32 22 a)
      let mj := (a &&& b) ^^^ (a &&& c) ^^^ (b &&& c)
      let t2 := (s0 + mj) % 4294967296
      [(t1 + t2) % 4294967296, a, b, c, (d + t1) % 4294967296, e, f, g]
  | st => st

/-- Process one 64-byte block against the running hash state. -/
def sha256Block (h : List Nat) (block : List Nat) : List Nat :=
  let w := sha256Schedule (bytesToWords block) 48
  let st := (sha256K.zip w).foldl sha256Round h
  (h.zip st).map (fun p => (p.1 + p.2) % 4294967296)

/-- SHA-256 digest of a byte list, as eight 32-bit words. -/
def sha256Words (msg : List Nat) : List Nat :=
  (chunks64 (sha256Pad msg)).foldl sha256Block
    [1779033703, 3144134277, 1013904242, 2773480762,
     1359893119, 2600822924, 528734635, 1541459225]

/-- One lowercase hex digit. -/
def hexDigit (d : Nat) : Char :=
  if d < 10 then Char.ofNat (d + 48) else Char.ofNat (d + 87)

/-- Eight lowercase hex characters of one 32-bit word. -/
def wordHex (w : Nat) : List Char :=
  [hexDigit ((w >>> 28) % 16), hexDigit ((w >>> 24) % 16),
   hexDigit ((w >>> 20) % 16), hexDigit ((w >>> 16) % 16),
   hexDigit ((w >>> 12) % 16), hexDigit ((w >>> 8) % 16),
   hexDigit ((w >>> 4) % 16), hexDigit (w % 16)]

/-- Models Python `hashlib.sha256(s.encode()).hexdigest()`. -/
def sha256_hexdigest (s : String) : String :=
  String.mk ((sha256Words (utf8Bytes s)).flatMap wordHex)

/-- Embeds `create_new_entity` of `entity_resolver.py`: the new ID is the
first 16 hex characters of the SHA-256 digest of
`"{entity_type}:{region_id}:{source_value}"`. -/
def create_new_entity (entity_type source_value region_id : String) : String :=
  let id_string := entity_type ++ ":" ++ region_id ++ ":" ++ source_value
  (sha256_hexdigest id_string).take 16

/-- Embedding vectors handed out by the external embedding model. -/
abbrev Embedding := List ℚ

/-- The `match_method` literal of `EntityMatch`. -/
inductive MatchMethod where
  | ID_EXACT | NAME_EXACT | FUZZY | EMBEDDING | NEW
deriving DecidableEq, Repr

/-- The `confidence` literal of `EntityMatch`. -/
inductive Confidence where
  | HIGH | MEDIUM | LOW
deriving DecidableEq, Repr

/-- The `value_type` literal of `resolve_entity`. -/
inductive ValueType where
  | id | name
deriving DecidableEq, Repr

/-- Embeds the `EntityMatch` dataclass of `entity_resolver.py`. -/
structure EntityMatch where
  entity_id : String
  entity_name : String
  entity_type : String
  similarity_score : ℚ
  match_method : MatchMethod
  confidence : Confidence
  source_value : String
deriving DecidableEq, Repr

/-- Embeds the `EntityCache` dataclass of `entity_resolver.py`; each Python
dict becomes an association list in insertion order. -/
structure EntityCache where
  teachers : List (String × String) := []
  students : List (String × String) := []
  parents : List (String × String) := []
  regions : List (String × String) := []
  subjects : List (String × String) := []
  schools : List (String × String) := []
  teacher_ids : List (String × String) := []
  student_ids : List (String × String) := []
  parent_ids : List (String × String) := []
  region_ids : List (String × String) := []
  subject_ids : List (String × String) := []
  school_ids : List (String × String) := []
  teacher_embeddings : List (String × Embedding) := []
  student_embeddings : List (String × Embedding) := []
  parent_embeddings : List (String × Embedding) := []
  region_embeddings : List (String × Embedding) := []
  subject_embeddings : List (String × Embedding) := []
  school_embeddings : List (String × Embedding) := []
  entity_names : List (String × String) := []
deriving DecidableEq, Repr

/-- Embeds `normalize_name`: lowercase, drop periods, collapse whitespace,
strip. -/
def normalize_name (name : String) : String :=
  if name = "" then ""
  else
    let normalized := pyLower name
    let normalized := String.mk (normalized.toList.filter (fun c => c ≠ '.'))
    let normalized := collapseSpaces normalized
    pyStrip normalized

/-- The hard-coded Russian first-name table of `expand_initials`, keyed by
initial letter. -/
def russian_names : List (Char × List String) :=
  [('а', ["александр", "алексей", "андрей", "анна", "анастасия"]),
   ('б', ["борис"]),
   ('в', ["владимир", "виктор", "валентина", "вера"]),
   ('г', ["григорий", "георгий"]),
   ('д', ["дмитрий", "даниил", "дарья"]),
   ('е', ["евгений", "елена", "екатерина"]),
   ('ж', ["жанна"]),
   ('з', ["захар"]),
   ('и', ["иван", "игорь", "илья", "ирина"]),
   ('к', ["константин"]),
   ('л', ["леонид", "людмила"]),
   ('м', ["михаил", "максим", "мария", "марина"]),
   ('н', ["николай", "наталья"]),
   ('о', ["олег", "ольга"]),
   ('п', ["павел", "петр", "полина"]),
   ('р', ["роман"]),
   ('с', ["сергей", "светлана"]),
   ('т', ["татьяна", "тимофей"]),
   ('у', ["ульяна"]),
   ('ф', ["федор"]),
   ('ю', ["юрий", "юлия"]),
   ('я', ["яков"])]

/-- One letter of the classes `[а-я]` or `[a-z]` under `re.IGNORECASE`. -/
def initialLetter (c : Char) : Bool :=
  let l := pyLowerChar c
  ('а' ≤ l ∧ l ≤ 'я') ∨ ('a' ≤ l ∧ l ≤ 'z')

/-- Models `initial_pattern.match` for the anchored pattern
`^[а-яa-z]\.?$` with `re.IGNORECASE`. -/
def initialMatch (s : String) : Bool :=
  match s.toList with
  | [c] => initialLetter c
  | [c, p] => initialLetter c && p = '.'
  | _ => false

/-- Embeds `expand_initials`: when the first whitespace-separated part is a
single-letter initial, produce up to five candidate full names from
`russian_names`. -/
def expand_initials (name : String) (_region_id : String) : List String :=
  let parts := pySplit name
  if parts = [] then []
  else if parts.length ≥ 2 ∧ initialMatch (parts.headD "") then
    let initial := (normalize_name (parts.headD "")).toList.headD ' '
    let last_name := String.intercalate " " parts.tail
    let first_names := ((russian_names.lookup initial).getD [])
    (first_names.take 5).map (fun first_name => first_name ++ " " ++ normalize_name last_name)
  else []

/-- Embeds `_get_cache_dicts`: the `(name_cache, id_cache, embedding_cache)`
triple for an entity type, empty dicts for an unknown type. -/
def _get_cache_dicts (cache : EntityCache) (entity_type : String) :
    List (String × String) × List (String × String) × List (String × Embedding) :=
  if entity_type = "teacher" then (cache.teachers, cache.teacher_ids, cache.teacher_embeddings)
  else if entity_type = "student" then (cache.students, cache.student_ids, cache.student_embeddings)
  else if entity_type = "parent" then (cache.parents, cache.parent_ids, cache.parent_embeddings)
  else if entity_type = "region" then (cache.regions, cache.region_ids, cache.region_embeddings)
  else if entity_type = "subject" then (cache.subjects, cache.subject_ids, cache.subject_embeddings)
  else if entity_type = "school" then (cache.schools, cache.school_ids, cache.school_embeddings)
  else ([], [], [])

/-- Embeds `_fuzzy_match`: scan the name dict in insertion order and keep the
best Levenshtein similarity that reaches the threshold (strictly improving,
so ties keep the earlier entry, exactly as the Python loop). -/
def _fuzzy_match (normalized_name : String) (name_cache : List (String × String))
    (threshold : ℚ) : Option (String × ℚ) :=
  (name_cache.foldl
    (fun (acc : Option (String × ℚ) × ℚ) p =>
      let d : ℚ := (levenshtein_distance normalized_name p.1 : ℚ)
      let max_len := max normalized_name.length p.1.length
      if max_len = 0 then acc
      else
        let similarity := 1 - d / (max_len : ℚ)
        if threshold ≤ similarity ∧ acc.2 < similarity then
          (some (p.2, similarity), similarity)
        else acc)
    (none, 0)).1

/-- Embeds `_embedding_match`: embed the source value with the external model
`embedF`, scan the embedding dict, and keep the best cosine similarity
(computed by the external `cosF`) that reaches the threshold. -/
def _embedding_match (embedF : String → Embedding) (cosF : Embedding → Embedding → ℚ)
    (source_value : String) (embedding_cache : List (String × Embedding))
    (_entity_names : List (String × String)) (threshold : ℚ) : Option (String × ℚ) :=
  if embedding_cache = [] then none
  else
    let source_embedding := embedF source_value
    (embedding_cache.foldl
      (fun (acc : Option (String × ℚ) × ℚ) p =>
        let similarity := cosF source_embedding p.2
        if threshold ≤ similarity ∧ acc.2 < similarity then
          (some (p.1, similarity), similarity)
        else acc)
      (none, 0)).1

/-- Embeds `resolve_entity` in state-passing form: the `EntityCache` argument
is threaded through every step as explicit state, and each step returns the
cache it leaves behind.  The source performs only non-mutating dict
operations (`in`, subscript, `.get`, `.items()` iteration), so every branch
returns the cache it received; the second component of the result witnesses
this.  External collaborators: `embedF` is `embed_texts` on a single value,
`cosF` is `sklearn` cosine similarity.  Literal thresholds of the source:
`0.85 = 17/20`, `0.80 = 4/5`, `0.75 = 3/4`. -/
def resolve_entity_st (embedF : String → Embedding) (cosF : Embedding → Embedding → ℚ)
    (source_value entity_type region_id : String) (value_type : ValueType)
    (threshold_fuzzy threshold_embedding : ℚ) (cache : EntityCache) :
    EntityMatch × EntityCache :=
  if source_value = "" then
    ({ entity_id := "", entity_name := "", entity_type := entity_type,
       similarity_score := 0, match_method := .NEW, confidence := .LOW,
       source_value := source_value }, cache)
  else
    let dicts := _get_cache_dicts cache entity_type
    let name_cache := dicts.1
    let id_cache := dicts.2.1
    let embedding_cache := dicts.2.2
    let idHit := if value_type = ValueType.id then id_cache.lookup source_value else none
    match idHit with
    | some canonical_id =>
        let entity_name := (cache.entity_names.lookup canonical_id).getD ""
        ({ entity_id := canonical_id, entity_name := entity_name,
           entity_type := entity_type, similarity_score := 1,
           match_method := .ID_EXACT, confidence := .HIGH,
           source_value := source_value }, cache)
    | none =>
      let normalized := normalize_name source_value
      match name_cache.lookup normalized with
      | some canonical_id =>
          let entity_name := (cache.entity_names.lookup canonical_id).getD ""
          ({ entity_id := canonical_id, entity_name := entity_name,
             entity_type := entity_type, similarity_score := 1,
             match_method := .NAME_EXACT, confidence := .HIGH,
             source_value := source_value }, cache)
      | none =>
        match _fuzzy_match normalized name_cache threshold_fuzzy with
        | some (canonical_id, score) =>
            let entity_name := (cache.entity_names.lookup canonical_id).getD ""
            let confidence : Confidence := if 17/20 ≤ score then .HIGH else .MEDIUM
            ({ entity_id := canonical_id, entity_name := entity_name,
               entity_type := entity_type, similarity_score := score,
               match_method := .FUZZY, confidence := confidence,
               source_value := source_value }, cache)
        | none =>
          let candidates := expand_initials source_value region_id
          match candidates.findSome? (fun candidate => name_cache.lookup candidate) with
          | some canonical_id =>
              let entity_name := (cache.entity_names.lookup canonical_id).getD ""
              ({ entity_id := canonical_id, entity_name := entity_name,
                 entity_type := entity_type, similarity_score := 4/5,
                 match_method := .FUZZY, confidence := .MEDIUM,
                 source_value := source_value }, cache)
          | none =>
            match
              (if embedding_cache ≠ [] then
                 _embedding_match embedF cosF source_value embedding_cache
                   cache.entity_names threshold_embedding
               else none) with
            | some (canonical_id, score) =>
                let entity_name := (cache.entity_names.lookup canonical_id).getD ""
                let confidence : Confidence := if 3/4 ≤ score then .HIGH else .MEDIUM
                ({ entity_id := canonical_id, entity_name := entity_name,
                   entity_type := entity_type, similarity_score := score,
                   match_method := .EMBEDDING, confidence := confidence,
                   source_value := source_value }, cache)
            | none =>
                ({ entity_id := "", entity_name := source_value,
                   entity_type := entity_type, similarity_score := 0,
                   match_method := .NEW, confidence := .LOW,
                   source_value := source_value }, cache)

/-- Embeds `resolve_entity`: the value component of the state-passing
embedding. -/
def resolve_entity (embedF : String → Embedding) (cosF : Embedding → Embedding → ℚ)
    (source_value entity_type region_id : String) (cache : EntityCache)
    (value_type : ValueType := .name) (threshold_fuzzy : ℚ := 17/20)
    (threshold_embedding : ℚ := 3/4) : EntityMatch :=
  (resolve_entity_st embedF cosF source_value entity_type region_id value_type
    threshold_fuzzy threshold_embedding cache).1

/-- Cells of a `pandas` object column (a missing value is `none`). -/
abbrev Cell := Option String

/-- DataFrame model: named columns in order, each with its cells. -/
abbrev Df := List (String × List Cell)

/-- Models `pandas` `df.empty`: true when either axis has length zero (for the
well-formed frames the pipeline builds, every column has the index length). -/
def dfEmpty (df : Df) : Bool :=
  df.isEmpty || df.all (fun c => c.2.isEmpty)

/-- Embeds `_extract_features` of `classifier.py`: one feature string per
column built from the header and up to `max_samples` non-null sample
values. -/
def _extract_features (df : Df) (max_samples : Nat := 5) : List String :=
  df.map (fun c =>
    let col_feature := "Column: " ++ c.1
    let sample_values := ((c.2.filterMap id).take max_samples)
    if sample_values ≠ [] then
      col_feature ++ " | Values: " ++ String.intercalate "; " sample_values
    else col_feature)

/-- One table-type anchor of the concepts catalog, with its precomputed
embedding. -/
structure TableType where
  name : String
  embedding : Embedding
deriving DecidableEq, Repr

/-- Mean cosine similarity of the feature embeddings against one table-type
anchor (`np.mean` over the similarity column). -/
def meanSimilarity (cosF : Embedding → Embedding → ℚ) (feature_embeddings : List Embedding)
    (anchor : Embedding) : ℚ :=
  (feature_embeddings.map (fun f => cosF f anchor)).sum / (feature_embeddings.length : ℚ)

/-- Embeds the raw per-type scores of `classify_table` (insertion order of
`catalog.table_types`). -/
def table_type_scores (cosF : Embedding → Embedding → ℚ) (feature_embeddings : List Embedding)
    (catalog : List TableType) : List (String × ℚ) :=
  catalog.map (fun t => (t.name, meanSimilarity cosF feature_embeddings t.embedding))

/-- Embeds the numerically-stabilized softmax of `classify_table`: subtract
the max, apply the external `np.exp` (`expF`), divide by the sum. -/
def softmax_scores (expF : ℚ → ℚ) (scores : List (String × ℚ)) : List (String × ℚ) :=
  let mx := ((scores.map (fun p => p.2)).foldl max ((scores.headD ("", 0)).2))
  let exps := scores.map (fun p => (p.1, expF (p.2 - mx)))
  let total := (exps.map (fun p => p.2)).sum
  exps.map (fun p => (p.1, p.2 / total))

/-- Models Python `max(d, key=d.get)` over an insertion-ordered dict: the
first key whose value is maximal (later entries replace only on a strictly
greater value). -/
def argmaxFirst (l : List (String × ℚ)) : String × ℚ :=
  match l with
  | [] => ("", 0)
  | p :: ps => ps.foldl (fun best q => if best.2 < q.2 then q else best) p

/-- Embeds `classify_table` of `classifier.py`.  External collaborators:
`embedF` is the batch `embed_texts`, `cosF` cosine similarity, `expF` is
`np.exp`.  The confidence threshold `0.4` of the source is `2/5`. -/
def classify_table (embedF : List String → List Embedding)
    (cosF : Embedding → Embedding → ℚ) (expF : ℚ → ℚ)
    (df : Df) (catalog : List TableType) : String × ℚ :=
  if dfEmpty df then ("FREE_FORM", 0)
  else
    let features := _extract_features df
    if features = [] then ("FREE_FORM", 0)
    else
      let feature_embeddings := embedF features
      let normalized_scores := softmax_scores expF (table_type_scores cosF feature_embeddings catalog)
      let best := argmaxFirst normalized_scores
      if best.2 < 2/5 then ("FREE_FORM", best.2)
      else best

/-- The `status` literal of `ColumnMapping`. -/
inductive MapStatus where
  | AUTO | LOW_CONFIDENCE | UNKNOWN
deriving DecidableEq, Repr

/-- Embeds the `ColumnMapping` dataclass of `mapping.py` (the fields the
normalizer reads, plus the score retained for audit). -/
structure ColumnMapping where
  source_column : String
  concept_key : Option String
  score : ℚ
  status : MapStatus
deriving DecidableEq, Repr

/-- Column names of a frame, models `df.columns`. -/
def dfKeys (df : Df) : List String :=
  df.map (fun c => c.1)

/-- Models `pandas` column assignment `df[name] = values`: overwrite in place
when the column exists, else append it on the right. -/
def setCol (df : Df) (name : String) (values : List Cell) : Df :=
  if name ∈ dfKeys df then
    df.map (fun c => if c.1 = name then (c.1, values) else c)
  else df ++ [(name, values)]

/-- Apply a whole-column transformation to one named column in place. -/
def mapCol (df : Df) (name : String) (f : List Cell → List Cell) : Df :=
  df.map (fun c => if c.1 = name then (c.1, f c.2) else c)

/-- Number of rows, models `len(df)` (index length of a well-formed frame). -/
def dfRows (df : Df) : Nat :=
  ((df.headD ("", [])).2).length

/-- Models the Python truthiness test on an optional string
(`None` and `""` are falsy). -/
def pyTruthy (s : Option String) : Bool :=
  match s with
  | none => false
  | some v => v ≠ ""

/-- Embeds the `rename_map` construction of `normalize_dataframe`: one entry
per mapping whose status is AUTO or LOW_CONFIDENCE and whose `concept_key`
is truthy, with dict-update semantics (a later mapping for the same source
column overwrites the earlier one). -/
def renameMap (mappings : List ColumnMapping) : List (String × String) :=
  mappings.foldl
    (fun acc m =>
      if (m.status = .AUTO ∨ m.status = .LOW_CONFIDENCE) ∧ pyTruthy m.concept_key then
        let v := m.concept_key.getD ""
        if m.source_column ∈ acc.map (fun p => p.1) then
          acc.map (fun p => if p.1 = m.source_column then (p.1, v) else p)
        else acc ++ [(m.source_column, v)]
      else acc)
    []

/-- Models `df.rename(columns=rename_map)`: every column name is sent through
the map, unmapped names stay. -/
def renameCols (df : Df) (rm : List (String × String)) : Df :=
  df.map (fun c => ((rm.lookup c.1).getD c.1, c.2))

/-- The keyword allowlist of the numeric cast in `_cast_column_types`. -/
def numericKeywords : List String :=
  ["score", "count", "value", "duration", "size", "length", "weight",
   "relevance", "impact", "sentiment"]

/-- Embeds `_cast_column_types` of `normalize.py`.  The `pandas` value-level
conversions are external collaborators: `toDate` is
`pd.to_datetime(..., errors="coerce")`, `toNum` is `pd.to_numeric(...,
errors="coerce")`, `stripNan` is `.astype(str).str.strip()` followed by the
`"nan"`-to-NA replacement; `dtypeNumeric` and `dtypeObject` are the dtype
tests.  Only cell values change: the column names are exactly those of the
input, in order. -/
def _cast_column_types (toDate toNum stripNan : List Cell → List Cell)
    (dtypeNumeric dtypeObject : List Cell → Bool) (df : Df) : Df :=
  let date_columns := (dfKeys df).filter
    (fun col => containsSub (pyLower col) "date" ||
      col ∈ ["from_date", "to_date", "uploaded_at", "timestamp"])
  let df := date_columns.foldl (fun d col => mapCol d col toDate) df
  let numeric_columns := (dfKeys df).filter
    (fun col => numericKeywords.any (fun k => containsSub (pyLower col) k))
  let df := numeric_columns.foldl
    (fun d col =>
      if (d.lookup col).any (fun vs => !dtypeNumeric vs) then mapCol d col toNum
      else d) df
  let string_columns := (df.filter (fun c => dtypeObject c.2)).map (fun c => c.1)
  string_columns.foldl (fun d col => mapCol d col stripNan) df

/-- Embeds `_clean_data` of `normalize.py`: school-name normalization in
place, then, when `PSEUDONYMIZE_IDS` is set, every column ending in `_id`
other than `region_id`/`file_id` is copied to an `_original` column and
hashed in place.  `normSchool` and `pseudo` are the value-level
collaborators (`_normalize_school_name`, `_pseudonymize_id` applied over a
column). -/
def _clean_data (pseudonymize_ids : Bool) (normSchool pseudo : List Cell → List Cell)
    (df : Df) : Df :=
  let df := if "school_name" ∈ dfKeys df then mapCol df "school_name" normSchool else df
  if pseudonymize_ids then
    let id_columns := (dfKeys df).filter
      (fun col => col.endsWith "_id" && col ∉ ["region_id", "file_id"])
    id_columns.foldl
      (fun d col =>
        let d := setCol d (col ++ "_original") ((d.lookup col).getD [])
        mapCol d col pseudo) df
  else df

/-- Embeds `normalize_dataframe` of `normalize.py`.  The external
collaborators are as in `_cast_column_types` and `_clean_data`; `nowCell`
is the `datetime.now(timezone.utc)` value broadcast into the
`ingest_timestamp` column. -/
def normalize_dataframe (toDate toNum stripNan : List Cell → List Cell)
    (dtypeNumeric dtypeObject : List Cell → Bool)
    (pseudonymize_ids : Bool) (normSchool pseudo : List Cell → List Cell)
    (nowCell : Cell)
    (df_raw : Df) (table_type : String) (mappings : List ColumnMapping)
    (region_id file_id : String) : Df :=
  if dfEmpty df_raw then df_raw
  else
    let df := df_raw
    let rename_map := renameMap mappings
    let df := if rename_map ≠ [] then renameCols df rename_map else df
    let df := _cast_column_types toDate toNum stripNan dtypeNumeric dtypeObject df
    let n := dfRows df
    let df := setCol df "region_id" (List.replicate n (some region_id))
    let df := setCol df "file_id" (List.replicate n (some file_id))
    let df := setCol df "ingest_timestamp" (List.replicate n nowCell)
    let df := setCol df "source_table_type" (List.replicate n (some table_type))
    _clean_data pseudonymize_ids normSchool pseudo df

/-- Embeds the `FeedbackTarget` dataclass of `feedback_analyzer.py`. -/
structure FeedbackTarget where
  feedback_id : String
  target_type : String
  target_id : String
  relevance_score : ℚ
  confidence : Confidence
deriving DecidableEq, Repr

/-- The deduplication key `(target_type, target_id)`. -/
def targetKey (t : FeedbackTarget) : String × String :=
  (t.target_type, t.target_id)

/-- One step of the deduplicating dict build: a new key is appended, an
existing key is overwritten only by a strictly higher relevance score. -/
def dedupStep (acc : List FeedbackTarget) (t : FeedbackTarget) : List FeedbackTarget :=
  if acc.any (fun u => targetKey u = targetKey t) then
    acc.map (fun u =>
      if targetKey u = targetKey t ∧ u.relevance_score < t.relevance_score then t else u)
  else acc ++ [t]

/-- Embeds `_combine_and_deduplicate_targets` of `feedback_analyzer.py`: a
dict keyed by `(target_type, target_id)` built over `targets_llm ++
targets_embedding` in order, keeping the higher relevance score on
collision; `list(dict.values())` preserves first-insertion order. -/
def _combine_and_deduplicate_targets (targets_llm targets_embedding : List FeedbackTarget) :
    List FeedbackTarget :=
  (targets_llm ++ targets_embedding).foldl dedupStep []

/-- Descending relevance order used by `_select_top_targets` (`a ≼ b` when
`b` scores no more than `a`). -/
def scoreGE (a b : FeedbackTarget) : Prop :=
  b.relevance_score ≤ a.relevance_score

instance : DecidableRel scoreGE := fun a b =>
  inferInstanceAs (Decidable (b.relevance_score ≤ a.relevance_score))

instance : IsTotal FeedbackTarget scoreGE :=
  ⟨fun a b => (le_total b.relevance_score a.relevance_score).imp id id⟩

instance : IsTrans FeedbackTarget scoreGE :=
  ⟨fun _ _ _ h1 h2 => le_trans h2 h1⟩

/-- Embeds `_select_top_targets` of `feedback_analyzer.py`: stable sort by
relevance score descending (Python `sorted(..., reverse=True)`), then take
the first `max_targets`. -/
def _select_top_targets (targets : List FeedbackTarget) (max_targets : Nat) :
    List FeedbackTarget :=
  (targets.insertionSort scoreGE).take max_targets

/-- A Python exception at the orchestrator boundary: its class name and its
message. -/
structure PyErr where
  name : String
  msg : String
deriving DecidableEq, Repr

/-- The typed error text `f"{type(e).__name__}: {str(e)}"` built by
`process_tabular_text`. -/
def typedMessage (e : PyErr) : String :=
  e.name ++ ": " ++ e.msg

/-- Embeds the fields of `FrontmatterData` that `process_tabular_text`
reads (the remaining metadata fields of the dataclass are never read by the
orchestrator and are omitted from the model). -/
structure FrontmatterData where
  file_id : String
  region_id : String
  original_content_type : Option String
deriving DecidableEq, Repr

/-- The `status` literal of `IngestResult`. -/
inductive IngestStatus where
  | INGESTED | FAILED
deriving DecidableEq, Repr

/-- Embeds the `IngestResult` dataclass of `pipeline.py`. -/
structure IngestResult where
  file_id : String
  status : IngestStatus
  table_type : Option String
  rows_loaded : Option Nat
  clean_location : Option String
  bytes_processed : Option Nat
  cache_hit : Option Bool
  error_message : Option String
  warnings : List String
  processing_time_ms : Nat
deriving DecidableEq, Repr

/-- Embeds `_is_tabular_content_type` of `pipeline.py`. -/
def _is_tabular_content_type (content_type : String) : Bool :=
  content_type ∈
    ["text/csv", "text/tab-separated-values", "application/vnd.ms-excel",
     "application/vnd.openxmlformats-officedocument.spreadsheetml.sheet"] ||
  content_type = "application/json"

/-- Models Python `x or default` on an optional string (both `None` and `""`
fall back). -/
def pyOrElse (s : Option String) (dflt : String) : String :=
  match s with
  | none => dflt
  | some v => if v = "" then dflt else v

/-- Outcome of one processing-path stage call: either the stage's
`IngestResult` or the exception it raised; in both cases paired with the
final contents of the shared mutable `warnings` list the orchestrator
handed in. -/
abbrev PathFn := String → FrontmatterData → List String →
  Except (PyErr × List String) (IngestResult × List String)

/-- Embeds `process_tabular_text` of `pipeline.py` in exception-passing
style.  Stage collaborators: `parse` is `parse_frontmatter` (its exceptions
modelled as `Except.error`), `tabularPath` and `freeFormPath` are
`_process_tabular_path` and `_process_free_form_path`.  `elapsedMs` stands
for the wall-clock `processing_time_ms` measurement.  The single
`try/except` of the source becomes the single `match` on the attempted
computation; the internal error value carries the exception, the warnings
collected so far, and the frontmatter local visible to the handler. -/
def process_tabular_text
    (parse : String → Except PyErr (Option FrontmatterData × String))
    (tabularPath freeFormPath : PathFn) (elapsedMs : Nat)
    (text_content : String) (frontmatter : Option FrontmatterData) : IngestResult :=
  let warnings : List String := []
  let attempt : Except (PyErr × List String × Option FrontmatterData) IngestResult :=
    match frontmatter, parse text_content with
    | none, .error e => .error (e, warnings, none)
    | some fm, .error e => .error (e, warnings, some fm)
    | none, .ok (none, _) =>
        .error (⟨"ValueError", "No frontmatter found in text content"⟩, warnings, none)
    | fm0, .ok (parsedFm, clean_text) =>
        let fm := match fm0 with
          | some fm => fm
          | none => parsedFm.getD ⟨"", "", none⟩
        let content_type := pyOrElse fm.original_content_type "text/plain"
        let path := if _is_tabular_content_type content_type then tabularPath else freeFormPath
        match path clean_text fm warnings with
        | .error (e, ws) => .error (e, ws, some fm)
        | .ok (result, _) => .ok { result with processing_time_ms := elapsedMs }
  match attempt with
  | .ok result => result
  | .error (e, ws, fmAt) =>
      { file_id := (fmAt.map (fun fm => fm.file_id)).getD "unknown",
        status := .FAILED, table_type := none, rows_loaded := none,
        clean_location := none, bytes_processed := none, cache_hit := none,
        error_message := some (typedMessage e), warnings := ws,
        processing_time_ms := elapsedMs }

/-- Invariant carried through the best-match fold of `_fuzzy_match`:
the accumulator is either the initial `(none, 0)` or a strictly positive
best score whose entity id satisfies `C`. -/
def BestInv (C : String → Prop) (acc : Option (String × ℚ) × ℚ) : Prop :=
  (acc.1 = none ∧ acc.2 = 0) ∨
  (∃ cid, acc.1 = some (cid, acc.2) ∧ 0 < acc.2 ∧ C cid)

/-- Invariant of the deduplicating dict build: unique keys, every kept target
is one of the processed inputs and dominates (by relevance score) every
processed input with its key, and every processed key is represented. -/
def DedupInv (seen acc : List FeedbackTarget) : Prop :=
  (acc.map targetKey).Nodup ∧
  (∀ t ∈ acc, t ∈ seen ∧
    ∀ u ∈ seen, targetKey u = targetKey t → u.relevance_score ≤ t.relevance_score) ∧
  (∀ u ∈ seen, ∃ x ∈ acc, targetKey x = targetKey u)

/-! Sanity checks of the executable model against known values. -/

theorem lev_check_1 : levenshtein_distance "kitten" "sitting" = 3 := by decide

theorem lev_check_2 : levenshtein_distance "и петров" "иван петров" = 3 := by decide

theorem sha256_check :
    sha256_hexdigest "abc" =
      "ba7816bf8f01cfea414140de5dae2223b00361a396177a9cb410ff61f20015ad" := by
  decide

/-! Helper lemmas. -/

theorem lookup_mem {α β : Type} [BEq α] [LawfulBEq α] :
    ∀ {l : List (α × β)} {k : α} {v : β}, l.lookup k = some v → (k, v) ∈ l := by
  intro l
  induction l with
  | nil => intro k v h; simp [List.lookup] at h
  | cons p t ih =>
      intro k v h
      simp only [List.lookup] at h
      by_cases hk : k == p.1
      · rw [hk] at h
        simp only [Option.some.injEq] at h
        have : k = p.1 := eq_of_beq hk
        subst this
        subst h
        exact List.mem_cons_self _ _
      · rw [Bool.not_eq_true] at hk
        rw [hk] at h
        exact List.mem_cons_of_mem _ (ih h)

theorem fuzzy_fold_inv (nn : String) (th : ℚ) (C : String → Prop) :
    ∀ (l : List (String × String)) (acc : Option (String × ℚ) × ℚ),
      BestInv C acc → (∀ p ∈ l, C p.2) →
      BestInv C (l.foldl
        (fun (acc : Option (String × ℚ) × ℚ) p =>
          let d : ℚ := (levenshtein_distance nn p.1 : ℚ)
          let max_len := max nn.length p.1.length
          if max_len = 0 then acc
          else
            let similarity := 1 - d / (max_len : ℚ)
            if th ≤ similarity ∧ acc.2 < similarity then
              (some (p.2, similarity), similarity)
            else acc) acc) := by
  intro l
  induction l with
  | nil => intro acc h _; exact h
  | cons p t ih =>
      intro acc h hC
      simp only [List.foldl_cons]
      apply ih
      · by_cases h0 : max nn.length p.1.length = 0
        · simpa [h0] using h
        · simp only [h0, if_false]
          set sim := 1 - (levenshtein_distance nn p.1 : ℚ) / ((max nn.length p.1.length : Nat) : ℚ) with hsim
          by_cases hcond : th ≤ sim ∧ acc.2 < sim
          · right
            refine ⟨p.2, by simp [hcond], ?_, hC p (List.mem_cons_self _ _)⟩
            rcases h with ⟨_, h2⟩ | ⟨cid, _, hpos, _⟩
            · simp only [hcond, if_true]
              exact lt_of_le_of_lt (le_of_eq h2.symm) hcond.2
            · simp only [hcond, if_true]
              exact lt_trans hpos hcond.2
          · simpa [hcond] using h
      · intro q hq; exact hC q (List.mem_cons_of_mem _ hq)

theorem fuzzy_match_some {nn : String} {nc : List (String × String)} {th : ℚ}
    {cid : String} {s : ℚ} (h : _fuzzy_match nn nc th = some (cid, s)) :
    0 < s ∧ ∃ k, (k, cid) ∈ nc := by
  have hinv := fuzzy_fold_inv nn th (fun c => ∃ k, (k, c) ∈ nc) nc (none, 0)
    (Or.inl ⟨rfl, rfl⟩) (fun p hp => ⟨p.1, hp⟩)
  unfold _fuzzy_match at h
  rcases hinv with ⟨h1, _⟩ | ⟨cid', h1, hpos, hC⟩
  · rw [h1] at h; exact absurd h (by simp)
  · rw [h1] at h
    simp only [Option.some.injEq, Prod.mk.injEq] at h
    rcases h with ⟨hcid, hs⟩
    subst hcid
    exact ⟨hs ▸ hpos, hC⟩

theorem embedding_fold_inv (embedF : String → Embedding) (cosF : Embedding → Embedding → ℚ)
    (sv : String) (th : ℚ) (C : String → Prop) :
    ∀ (l : List (String × Embedding)) (acc : Option (String × ℚ) × ℚ),
      BestInv C acc → (∀ p ∈ l, C p.1) →
      BestInv C (l.foldl
        (fun (acc : Option (String × ℚ) × ℚ) p =>
          let similarity := cosF (embedF sv) p.2
          if th ≤ similarity ∧ acc.2 < similarity then
            (some (p.1, similarity), similarity)
          else acc) acc) := by
  intro l
  induction l with
  | nil => intro acc h _; exact h
  | cons p t ih =>
      intro acc h hC
      simp only [List.foldl_cons]
      apply ih
      · set sim := cosF (embedF sv) p.2 with hsim
        by_cases hcond : th ≤ sim ∧ acc.2 < sim
        · right
          refine ⟨p.1, by simp [hcond], ?_, hC p (List.mem_cons_self _ _)⟩
          rcases h with ⟨_, h2⟩ | ⟨cid, _, hpos, _⟩
          · simp only [hcond, if_true]
            exact lt_of_le_of_lt (le_of_eq h2.symm) hcond.2
          · simp only [hcond, if_true]
            exact lt_trans hpos hcond.2
        · simpa [hcond] using h
      · intro q hq; exact hC q (List.mem_cons_of_mem _ hq)

theorem embedding_match_some {embedF : String → Embedding}
    {cosF : Embedding → Embedding → ℚ} {sv : String}
    {ec : List (String × Embedding)} {en : List (String × String)} {th : ℚ}
    {cid : String} {s : ℚ}
    (h : _embedding_match embedF cosF sv ec en th = some (cid, s)) :
    0 < s ∧ ∃ e, (cid, e) ∈ ec := by
  unfold _embedding_match at h
  by_cases hec : ec = []
  · rw [hec] at h; exact absurd h (by simp)
  · simp only [hec, if_false] at h
    have hinv := embedding_fold_inv embedF cosF sv th (fun c => ∃ e, (c, e) ∈ ec) ec (none, 0)
      (Or.inl ⟨rfl, rfl⟩) (fun p hp => ⟨p.2, hp⟩)
    rcases hinv with ⟨h1, _⟩ | ⟨cid', h1, hpos, hC⟩
    · rw [h1] at h; exact absurd h (by simp)
    · rw [h1] at h
      simp only [Option.some.injEq, Prod.mk.injEq] at h
      rcases h with ⟨hcid, hs⟩
      subst hcid
      exact ⟨hs ▸ hpos, hC⟩

/-! Claim theorems. -/

/-- C1: entity resolution is a strict priority chain: for every cache, entity
type, and non-empty `source_value` with `value_type = id`, an exact hit in
the type's id index makes `resolve_entity` return `ID_EXACT` with score
`1.0` and confidence `HIGH` — regardless of what the name index holds, so a
fuzzy name match is never reported in that case. -/
theorem claim_C1_id_exact_priority (embedF : String → Embedding)
    (cosF : Embedding → Embedding → ℚ)
    (source_value entity_type region_id : String) (cache : EntityCache)
    (tf te : ℚ) (canonical_id : String)
    (hne : source_value ≠ "")
    (hid : ((_get_cache_dicts cache entity_type).2.1).lookup source_value = some canonical_id) :
    resolve_entity embedF cosF source_value entity_type region_id cache .id tf te =
      { entity_id := canonical_id,
        entity_name := (cache.entity_names.lookup canonical_id).getD "",
        entity_type := entity_type, similarity_score := 1,
        match_method := .ID_EXACT, confidence := .HIGH,
        source_value := source_value } := by
  simp [resolve_entity, resolve_entity_st, hne, hid]

/-- Witness for C1 at a concrete cache in which the id index and a fuzzy
name candidate would both satisfy the query. -/
theorem claim_C1_witness :
    ("T1" : String) ≠ "" ∧
    ((_get_cache_dicts
        { teacher_ids := [("T1", "X")], teachers := [("t one", "Y")] }
        "teacher").2.1).lookup "T1" = some "X" ∧
    resolve_entity (fun _ => []) (fun _ _ => 0) "T1" "teacher" "r"
        { teacher_ids := [("T1", "X")], teachers := [("t one", "Y")] } .id (17/20) (3/4) =
      { entity_id := "X",
        entity_name := ((({ teacher_ids := [("T1", "X")], teachers := [("t one", "Y")] } :
            EntityCache).entity_names).lookup "X").getD "",
        entity_type := "teacher", similarity_score := 1,
        match_method := .ID_EXACT, confidence := .HIGH,
        source_value := "T1" } :=
  ⟨by decide, by decide,
    claim_C1_id_exact_priority (fun _ => []) (fun _ _ => 0) "T1" "teacher" "r"
      { teacher_ids := [("T1", "X")], teachers := [("t one", "Y")] }
      (17/20) (3/4) "X" (by decide) (by decide)⟩

/-- C2: `create_new_entity` is deterministic and idempotent — two calls with
the same `(entity_type, source_value, region_id)` return the same ID, and
that ID is content-addressed: the first 16 hex characters of the SHA-256
digest of `"type:region:value"`. -/
theorem claim_C2_create_new_entity_idempotent
    (entity_type source_value region_id : String) :
    create_new_entity entity_type source_value region_id =
      create_new_entity entity_type source_value region_id ∧
    create_new_entity entity_type source_value region_id =
      (sha256_hexdigest (entity_type ++ ":" ++ region_id ++ ":" ++ source_value)).take 16 :=
  ⟨rfl, rfl⟩

/-- C10: `resolve_entity` never mutates its cache: in the state-passing
embedding every branch hands back exactly the `EntityCache` it received, so
all name, id and embedding indexes and the `entity_names` map are unchanged
whatever strategy fires. -/
theorem claim_C10_no_mutation (embedF : String → Embedding)
    (cosF : Embedding → Embedding → ℚ)
    (source_value entity_type region_id : String) (value_type : ValueType)
    (tf te : ℚ) (cache : EntityCache) :
    (resolve_entity_st embedF cosF source_value entity_type region_id
        value_type tf te cache).2 = cache := by
  unfold resolve_entity_st
  dsimp only
  repeat first | rfl | split

/-- Counterexample to C7 as stated: the source guard `if not source_value`
only catches the empty string, so the whitespace-only value `" "` does NOT
short-circuit to NEW — with `" "` present in the id index it resolves to
`ID_EXACT`. -/
theorem claim_C7_counterexample :
    (resolve_entity (fun _ => []) (fun _ _ => 0) " " "teacher" "r"
        { teacher_ids := [(" ", "X")] } .id (17/20) (3/4)).match_method =
      MatchMethod.ID_EXACT ∧
    (resolve_entity (fun _ => []) (fun _ _ => 0) " " "teacher" "r"
        { teacher_ids := [(" ", "X")] } .id (17/20) (3/4)).entity_id = "X" := by
  constructor <;> decide

/-- C7 amended: resolving the EMPTY `source_value` (the only falsy string)
short-circuits straight to NEW: `match_method = NEW`, confidence LOW, empty
`entity_id`, similarity score `0.0`, and (being a total function) no
exception; a whitespace-only value instead proceeds down the chain. -/
theorem claim_C7_empty_short_circuit (embedF : String → Embedding)
    (cosF : Embedding → Embedding → ℚ) (entity_type region_id : String)
    (cache : EntityCache) (value_type : ValueType) (tf te : ℚ) :
    resolve_entity embedF cosF "" entity_type region_id cache value_type tf te =
      { entity_id := "", entity_name := "", entity_type := entity_type,
        similarity_score := 0, match_method := .NEW, confidence := .LOW,
        source_value := "" } := by
  simp [resolve_entity, resolve_entity_st]

/-- Counterexample to C9 as stated: nothing stops a cache id index from
mapping a source id to the empty canonical id, and then `resolve_entity`
returns `ID_EXACT` with confidence HIGH yet `entity_id = ""`, breaking the
claimed equivalence between "match_method is NEW" and "entity_id is
empty". -/
theorem claim_C9_counterexample :
    ¬ ((resolve_entity (fun _ => []) (fun _ _ => 0) "a" "teacher" "r"
          { teacher_ids := [("a", "")] } .id (17/20) (3/4)).match_method =
        MatchMethod.NEW ↔
       (resolve_entity (fun _ => []) (fun _ _ => 0) "a" "teacher" "r"
          { teacher_ids := [("a", "")] } .id (17/20) (3/4)).entity_id = "") := by
  decide

/-- Every result of `resolve_entity` is either the NEW sentinel (empty id,
LOW confidence, zero score) or a non-NEW match with non-LOW confidence,
non-empty id (given non-empty ids in the cache indexes), HIGH or MEDIUM
confidence and positive score. -/
theorem resolve_entity_shape (embedF : String → Embedding)
    (cosF : Embedding → Embedding → ℚ)
    (source_value entity_type region_id : String) (cache : EntityCache)
    (value_type : ValueType) (tf te : ℚ)
    (hname : ∀ p ∈ (_get_cache_dicts cache entity_type).1, p.2 ≠ "")
    (hid : ∀ p ∈ (_get_cache_dicts cache entity_type).2.1, p.2 ≠ "")
    (hemb : ∀ p ∈ (_get_cache_dicts cache entity_type).2.2, p.1 ≠ "") :
    (let m := resolve_entity embedF cosF source_value entity_type region_id cache
      value_type tf te
    (m.match_method = .NEW ∧ m.confidence = .LOW ∧ m.entity_id = "" ∧
      m.similarity_score = 0) ∨
    (m.match_method ≠ .NEW ∧ m.confidence ≠ .LOW ∧ m.entity_id ≠ "" ∧
      (m.confidence = .HIGH ∨ m.confidence = .MEDIUM) ∧ 0 < m.similarity_score)) := by
  unfold resolve_entity resolve_entity_st
  dsimp only
  split
  · exact Or.inl ⟨rfl, rfl, rfl, rfl⟩
  · split
    · rename_i canonical_id heq
      have hmem : (source_value, canonical_id) ∈ (_get_cache_dicts cache entity_type).2.1 := by
        rcases Classical.em (value_type = ValueType.id) with hvt | hvt
        · rw [if_pos hvt] at heq
          exact lookup_mem heq
        · rw [if_neg hvt] at heq
          exact absurd heq (by simp)
      refine Or.inr ⟨by simp, by simp, hid _ hmem, Or.inl rfl, one_pos⟩
    · split
      · rename_i canonical_id heq
        have hmem := lookup_mem heq
        refine Or.inr ⟨by simp, by simp, hname _ hmem, Or.inl rfl, one_pos⟩
      · split
        · rename_i canonical_id score heq
          obtain ⟨hpos, k, hk⟩ := fuzzy_match_some heq
          refine Or.inr ⟨by simp, ?_, hname _ hk, ?_, hpos⟩
          · rcases le_or_lt (17/20 : ℚ) score with hs | hs
            · simp [hs]
            · simp [not_le.mpr hs]
          · rcases le_or_lt (17/20 : ℚ) score with hs | hs
            · exact Or.inl (by simp [hs])
            · exact Or.inr (by simp [not_le.mpr hs])
        · split
          · rename_i canonical_id heq
            obtain ⟨cand, _, hlk⟩ := List.exists_of_findSome?_eq_some heq
            have hmem := lookup_mem hlk
            refine Or.inr ⟨by simp, by simp, hname _ hmem, Or.inr rfl, by norm_num⟩
          · split
            · rename_i canonical_id score heq
              have hm : _embedding_match embedF cosF source_value
                  (_get_cache_dicts cache entity_type).2.2 cache.entity_names te =
                  some (canonical_id, score) := by
                rcases Classical.em ((_get_cache_dicts cache entity_type).2.2 = []) with hec | hec
                · rw [if_neg (by simp [hec])] at heq
                  exact absurd heq (by simp)
                · rwa [if_pos hec] at heq
              obtain ⟨hpos, e, he⟩ := embedding_match_some hm
              refine Or.inr ⟨by simp, ?_, hemb _ he, ?_, hpos⟩
              · rcases le_or_lt (3/4 : ℚ) score with hs | hs
                · simp [hs]
                · simp [not_le.mpr hs]
              · rcases le_or_lt (3/4 : ℚ) score with hs | hs
                · exact Or.inl (by simp [hs])
                · exact Or.inr (by simp [not_le.mpr hs])
            · exact Or.inl ⟨rfl, rfl, rfl, rfl⟩

/-- C9 amended: provided every canonical id stored in the resolved type's
name index, id index and embedding index is non-empty, each `EntityMatch`
returned by `resolve_entity` satisfies the invariant: `match_method = NEW`,
`confidence = LOW`, `entity_id = ""` and `similarity_score = 0` are
equivalent, and every non-NEW result carries confidence HIGH or MEDIUM and
a positive similarity score. -/
theorem claim_C9_invariant (embedF : String → Embedding)
    (cosF : Embedding → Embedding → ℚ)
    (source_value entity_type region_id : String) (cache : EntityCache)
    (value_type : ValueType) (tf te : ℚ)
    (hname : ∀ p ∈ (_get_cache_dicts cache entity_type).1, p.2 ≠ "")
    (hid : ∀ p ∈ (_get_cache_dicts cache entity_type).2.1, p.2 ≠ "")
    (hemb : ∀ p ∈ (_get_cache_dicts cache entity_type).2.2, p.1 ≠ "") :
    (let m := resolve_entity embedF cosF source_value entity_type region_id cache
      value_type tf te
    ((m.match_method = .NEW ↔ m.confidence = .LOW) ∧
     (m.match_method = .NEW ↔ m.entity_id = "") ∧
     (m.match_method = .NEW ↔ m.similarity_score = 0)) ∧
    (m.match_method ≠ .NEW →
      (m.confidence = .HIGH ∨ m.confidence = .MEDIUM) ∧ 0 < m.similarity_score)) := by
  have hs := resolve_entity_shape embedF cosF source_value entity_type region_id cache
    value_type tf te hname hid hemb
  dsimp only at hs ⊢
  rcases hs with ⟨h1, h2, h3, h4⟩ | ⟨h1, h2, h3, h4, h5⟩
  · exact ⟨⟨iff_of_true h1 h2, iff_of_true h1 h3, iff_of_true h1 h4⟩,
      fun hn => absurd h1 hn⟩
  · exact ⟨⟨iff_of_false h1 h2, iff_of_false h1 h3,
      iff_of_false h1 (ne_of_gt h5)⟩, fun _ => ⟨h4, h5⟩⟩

/-- Witness for the amended C9 at a concrete cache with non-empty canonical
ids. -/
theorem claim_C9_witness :
    (∀ p ∈ (_get_cache_dicts { teachers := [("anna k", "T-9")] } "teacher").1, p.2 ≠ "") ∧
    (∀ p ∈ (_get_cache_dicts { teachers := [("anna k", "T-9")] } "teacher").2.1, p.2 ≠ "") ∧
    (∀ p ∈ (_get_cache_dicts { teachers := [("anna k", "T-9")] } "teacher").2.2, p.1 ≠ "") ∧
    (let m := resolve_entity (fun _ => []) (fun _ _ => 0) "anna k" "teacher" "r"
      { teachers := [("anna k", "T-9")] } .name (17/20) (3/4)
    ((m.match_method = .NEW ↔ m.confidence = .LOW) ∧
     (m.match_method = .NEW ↔ m.entity_id = "") ∧
     (m.match_method = .NEW ↔ m.similarity_score = 0)) ∧
    (m.match_method ≠ .NEW →
      (m.confidence = .HIGH ∨ m.confidence = .MEDIUM) ∧ 0 < m.similarity_score)) :=
  ⟨by decide, by decide, by decide,
    claim_C9_invariant (fun _ => []) (fun _ _ => 0) "anna k" "teacher" "r"
      { teachers := [("anna k", "T-9")] } .name (17/20) (3/4)
      (by decide) (by decide) (by decide)⟩

theorem fuzzy_eval_latin_none :
    _fuzzy_match "i petrov" [("ivan petrov", "T-1")] (17/20) = none := by
  have hd : levenshtein_distance "i petrov" "ivan petrov" = 3 := by decide
  have hmax : max ("i petrov".length) ("ivan petrov".length) = 11 := by decide
  simp only [_fuzzy_match, List.foldl_cons, List.foldl_nil, hd, hmax]
  norm_num

theorem fuzzy_eval_cyrillic_none :
    _fuzzy_match "и петров" [("иван петров", "T-1")] (17/20) = none := by
  have hd : levenshtein_distance "и петров" "иван петров" = 3 := by decide
  have hmax : max ("и петров".length) ("иван петров".length) = 11 := by decide
  simp only [_fuzzy_match, List.foldl_cons, List.foldl_nil, hd, hmax]
  norm_num

/-- Counterexample to C5 as stated: with the Latin-script cache
`name_index = [("ivan petrov", "T-1")]` of the claim, resolving the Latin
`"I. Petrov"` does NOT return the claimed FUZZY/0.80 match — the hard-coded
first-name table of `expand_initials` is keyed by Cyrillic initials, so the
Latin initial `i` yields no candidates, Levenshtein similarity `8/11` is
below the `0.85` threshold, and the result is the NEW sentinel. -/
theorem claim_C5_counterexample :
    resolve_entity (fun _ => []) (fun _ _ => 0) "I. Petrov" "teacher" "r"
        { teachers := [("ivan petrov", "T-1")] } .name (17/20) (3/4) =
      { entity_id := "", entity_name := "I. Petrov", entity_type := "teacher",
        similarity_score := 0, match_method := .NEW, confidence := .LOW,
        source_value := "I. Petrov" } := by
  have hfz := fuzzy_eval_latin_none
  have hn : normalize_name "I. Petrov" = "i petrov" := by decide
  have hcand : expand_initials "I. Petrov" "r" = [] := by decide
  have hlk : (List.lookup "i petrov" [("ivan petrov", "T-1")] : Option String) = none := by
    decide
  simp [resolve_entity, resolve_entity_st, _get_cache_dicts, hn, hcand, hfz, hlk]

/-- C5 amended: the scenario holds with the Cyrillic spellings the code's
initials table expects: for a cache whose teacher name index maps
`"иван петров"` to `"T-1"`, resolving `"И. Петров"` goes through initials
expansion (candidate `"иван петров"`) and returns `match_method = FUZZY`,
`similarity_score = 0.80`, confidence MEDIUM and `entity_id = "T-1"`. -/
theorem claim_C5_initials_expansion :
    resolve_entity (fun _ => []) (fun _ _ => 0) "И. Петров" "teacher" "r"
        { teachers := [("иван петров", "T-1")] } .name (17/20) (3/4) =
      { entity_id := "T-1", entity_name := "", entity_type := "teacher",
        similarity_score := 4/5, match_method := .FUZZY, confidence := .MEDIUM,
        source_value := "И. Петров" } := by
  have hfz := fuzzy_eval_cyrillic_none
  have hn : normalize_name "И. Петров" = "и петров" := by decide
  have hlk : (List.lookup "и петров" [("иван петров", "T-1")] : Option String) = none := by
    decide
  have hfs : (expand_initials "И. Петров" "r").findSome?
      (fun c => List.lookup c [("иван петров", "T-1")]) = some "T-1" := by decide
  simp [resolve_entity, resolve_entity_st, _get_cache_dicts, hn, hfz, hlk, hfs]

/-- C3: whichever processing path the router picks, an exception raised
inside a pipeline stage is caught once at the orchestrator boundary:
`process_tabular_text` returns an `IngestResult` with `status = FAILED`,
the typed error message `"ExcName: message"`, and exactly the warnings the
stage had collected before failing — instead of propagating the
exception. -/
theorem claim_C3_orchestrator_catches
    (parse : String → Except PyErr (Option FrontmatterData × String))
    (tabularPath freeFormPath : PathFn) (elapsedMs : Nat)
    (text_content : String) (fm : FrontmatterData)
    (parsedFm : Option FrontmatterData) (clean_text : String)
    (e : PyErr) (ws : List String)
    (hparse : parse text_content = .ok (parsedFm, clean_text))
    (hpath : (if _is_tabular_content_type (pyOrElse fm.original_content_type "text/plain")
        then tabularPath else freeFormPath) clean_text fm [] = .error (e, ws)) :
    process_tabular_text parse tabularPath freeFormPath elapsedMs text_content (some fm) =
      { file_id := fm.file_id, status := .FAILED, table_type := none,
        rows_loaded := none, clean_location := none, bytes_processed := none,
        cache_hit := none, error_message := some (typedMessage e),
        warnings := ws, processing_time_ms := elapsedMs } := by
  simp [process_tabular_text, hparse, hpath]

/-- Witness for C3: a concrete tabular-path stage that raises
`RuntimeError("boom")` after collecting one warning. -/
theorem claim_C3_witness :
    ((fun _ => Except.ok (none, "body")) : String → Except PyErr (Option FrontmatterData × String))
        "text" = .ok (none, "body") ∧
    (if _is_tabular_content_type
        (pyOrElse (some "text/csv") "text/plain")
      then ((fun _ _ ws => Except.error (⟨"RuntimeError", "boom"⟩, ws ++ ["w1"])) : PathFn)
      else (fun _ _ ws => Except.ok
        ({ file_id := "F1", status := .INGESTED, table_type := none,
           rows_loaded := none, clean_location := none, bytes_processed := none,
           cache_hit := none, error_message := none, warnings := ws,
           processing_time_ms := 0 }, ws))) "body" ⟨"F1", "R1", some "text/csv"⟩ [] =
      .error (⟨"RuntimeError", "boom"⟩, ["w1"]) ∧
    process_tabular_text (fun _ => Except.ok (none, "body"))
        (fun _ _ ws => Except.error (⟨"RuntimeError", "boom"⟩, ws ++ ["w1"]))
        (fun _ _ ws => Except.ok
          ({ file_id := "F1", status := .INGESTED, table_type := none,
             rows_loaded := none, clean_location := none, bytes_processed := none,
             cache_hit := none, error_message := none, warnings := ws,
             processing_time_ms := 0 }, ws))
        42 "text" (some ⟨"F1", "R1", some "text/csv"⟩) =
      { file_id := "F1", status := .FAILED, table_type := none,
        rows_loaded := none, clean_location := none, bytes_processed := none,
        cache_hit := none, error_message := some (typedMessage ⟨"RuntimeError", "boom"⟩),
        warnings := ["w1"], processing_time_ms := 42 } :=
  ⟨rfl, rfl,
    claim_C3_orchestrator_catches (fun _ => Except.ok (none, "body"))
      (fun _ _ ws => Except.error (⟨"RuntimeError", "boom"⟩, ws ++ ["w1"]))
      (fun _ _ ws => Except.ok
        ({ file_id := "F1", status := .INGESTED, table_type := none,
           rows_loaded := none, clean_location := none, bytes_processed := none,
           cache_hit := none, error_message := none, warnings := ws,
           processing_time_ms := 0 }, ws))
      42 "text" ⟨"F1", "R1", some "text/csv"⟩ none "body"
      ⟨"RuntimeError", "boom"⟩ ["w1"] rfl rfl⟩

/-- C4: on a non-empty table (and a non-empty catalog, without which the
source's `max()` would raise), `classify_table` returns the argmax table
type with its winning softmax score exactly when that score is `≥ 0.4`, and
`("FREE_FORM", score)` exactly when the winning score is `< 0.4`; in
particular a winning score of exactly `0.4` is classified and any smaller
score reroutes to FREE_FORM. -/
theorem claim_C4_classification_threshold (embedF : List String → List Embedding)
    (cosF : Embedding → Embedding → ℚ) (expF : ℚ → ℚ)
    (df : Df) (catalog : List TableType)
    (hdf : dfEmpty df = false) (_hcat : catalog ≠ []) :
    (let best := argmaxFirst (softmax_scores expF
        (table_type_scores cosF (embedF (_extract_features df)) catalog))
    (2/5 ≤ best.2 → classify_table embedF cosF expF df catalog = best) ∧
    (best.2 < 2/5 → classify_table embedF cosF expF df catalog = ("FREE_FORM", best.2))) := by
  have hfe : _extract_features df ≠ [] := by
    intro h
    have hdfnil : df = [] := by
      cases df with
      | nil => rfl
      | cons a t => simp [_extract_features] at h
    rw [hdfnil] at hdf
    simp [dfEmpty] at hdf
  dsimp only
  constructor
  · intro hge
    simp [classify_table, hdf, hfe, not_lt.mpr hge]
  · intro hlt
    simp [classify_table, hdf, hfe, hlt]

/-- Witness for C4 at a concrete one-column table and a four-type catalog
whose softmax is arranged so the winner scores exactly `2/5 = 0.4`. -/
theorem claim_C4_witness :
    dfEmpty [("a", [some "v"])] = false ∧
    ([⟨"A", [1]⟩, ⟨"B", [0]⟩, ⟨"C", [0]⟩, ⟨"D", [0]⟩] : List TableType) ≠ [] ∧
    (let best := argmaxFirst (softmax_scores (fun q => if q = 0 then 2 else 1)
        (table_type_scores (fun x y => if x = y then 1 else 0)
          ((fun ts => ts.map (fun _ => ([1] : Embedding))) (_extract_features [("a", [some "v"])]))
          [⟨"A", [1]⟩, ⟨"B", [0]⟩, ⟨"C", [0]⟩, ⟨"D", [0]⟩]))
    (2/5 ≤ best.2 →
      classify_table (fun ts => ts.map (fun _ => ([1] : Embedding)))
        (fun x y => if x = y then 1 else 0) (fun q => if q = 0 then 2 else 1)
        [("a", [some "v"])] [⟨"A", [1]⟩, ⟨"B", [0]⟩, ⟨"C", [0]⟩, ⟨"D", [0]⟩] = best) ∧
    (best.2 < 2/5 →
      classify_table (fun ts => ts.map (fun _ => ([1] : Embedding)))
        (fun x y => if x = y then 1 else 0) (fun q => if q = 0 then 2 else 1)
        [("a", [some "v"])] [⟨"A", [1]⟩, ⟨"B", [0]⟩, ⟨"C", [0]⟩, ⟨"D", [0]⟩] =
          ("FREE_FORM", best.2))) :=
  ⟨by decide, by decide,
    claim_C4_classification_threshold (fun ts => ts.map (fun _ => ([1] : Embedding)))
      (fun x y => if x = y then 1 else 0) (fun q => if q = 0 then 2 else 1)
      [("a", [some "v"])] [⟨"A", [1]⟩, ⟨"B", [0]⟩, ⟨"C", [0]⟩, ⟨"D", [0]⟩]
      (by decide) (by decide)⟩

theorem dfKeys_mapCol (df : Df) (n : String) (f : List Cell → List Cell) :
    dfKeys (mapCol df n f) = dfKeys df := by
  simp only [dfKeys, mapCol, List.map_map]
  apply List.map_congr_left
  intro c _
  by_cases h : c.1 = n <;> simp [h]

theorem mem_dfKeys_setCol (df : Df) (n : String) (v : List Cell) (c : String)
    (h : c ∈ dfKeys df ∨ c = n) : c ∈ dfKeys (setCol df n v) := by
  unfold setCol
  by_cases hn : n ∈ dfKeys df
  · rw [if_pos hn]
    have hkeys : dfKeys (df.map (fun p => if p.1 = n then (p.1, v) else p)) = dfKeys df := by
      simp only [dfKeys, List.map_map]
      apply List.map_congr_left
      intro p _
      by_cases hp : p.1 = n <;> simp [hp]
    rw [hkeys]
    rcases h with h | h
    · exact h
    · rw [h]; exact hn
  · rw [if_neg hn]
    simp only [dfKeys, List.map_append]
    rcases h with h | h
    · exact List.mem_append_left _ h
    · simp [dfKeys, h]

theorem dfKeys_foldl_eq {α : Type} (step : Df → α → Df)
    (h : ∀ d a, dfKeys (step d a) = dfKeys d) :
    ∀ (l : List α) (d : Df), dfKeys (l.foldl step d) = dfKeys d := by
  intro l
  induction l with
  | nil => intro d; rfl
  | cons x t ih => intro d; rw [List.foldl_cons, ih, h]

theorem mem_dfKeys_foldl {α : Type} (step : Df → α → Df)
    (h : ∀ d a c, c ∈ dfKeys d → c ∈ dfKeys (step d a)) :
    ∀ (l : List α) (d : Df) (c : String), c ∈ dfKeys d → c ∈ dfKeys (l.foldl step d) := by
  intro l
  induction l with
  | nil => intro d c hc; exact hc
  | cons x t ih => intro d c hc; rw [List.foldl_cons]; exact ih _ _ (h _ _ _ hc)

theorem dfKeys_cast (toDate toNum stripNan : List Cell → List Cell)
    (dtypeNumeric dtypeObject : List Cell → Bool) (df : Df) :
    dfKeys (_cast_column_types toDate toNum stripNan dtypeNumeric dtypeObject df) =
      dfKeys df := by
  unfold _cast_column_types
  dsimp only
  rw [dfKeys_foldl_eq _ (fun d a => dfKeys_mapCol d a stripNan)]
  rw [dfKeys_foldl_eq _ ?hnum]
  case hnum =>
    intro d a
    by_cases hx : (d.lookup a).any (fun vs => !dtypeNumeric vs) <;>
      simp [hx, dfKeys_mapCol]
  rw [dfKeys_foldl_eq _ (fun d a => dfKeys_mapCol d a toDate)]

theorem mem_dfKeys_clean (pseudonymize : Bool) (normSchool pseudo : List Cell → List Cell)
    (df : Df) (c : String) (h : c ∈ dfKeys df) :
    c ∈ dfKeys (_clean_data pseudonymize normSchool pseudo df) := by
  unfold _clean_data
  dsimp only
  have h1 : c ∈ dfKeys (if "school_name" ∈ dfKeys df
      then mapCol df "school_name" normSchool else df) := by
    by_cases hs : "school_name" ∈ dfKeys df <;> simp [hs, dfKeys_mapCol, h]
  by_cases hp : pseudonymize = true
  · rw [if_pos hp]
    apply mem_dfKeys_foldl _ ?step _ _ _ h1
    case step =>
      intro d a c' hc'
      rw [dfKeys_mapCol]
      exact mem_dfKeys_setCol _ _ _ _ (Or.inl hc')
  · rw [if_neg hp]
    exact h1

/-- C6 amended: for every non-empty input table, `normalize_dataframe`
appends the process metadata columns `region_id`, `file_id`,
`ingest_timestamp` and `source_table_type` (the spec's `record_id` is the
code's `file_id`): all four are present in the output's columns. -/
theorem claim_C6_metadata_columns (toDate toNum stripNan : List Cell → List Cell)
    (dtypeNumeric dtypeObject : List Cell → Bool) (pseudonymize : Bool)
    (normSchool pseudo : List Cell → List Cell) (nowCell : Cell)
    (df_raw : Df) (table_type : String) (mappings : List ColumnMapping)
    (region_id file_id : String)
    (h : dfEmpty df_raw = false) :
    ∀ c ∈ ["region_id", "file_id", "ingest_timestamp", "source_table_type"],
      c ∈ dfKeys (normalize_dataframe toDate toNum stripNan dtypeNumeric dtypeObject
        pseudonymize normSchool pseudo nowCell df_raw table_type mappings
        region_id file_id) := by
  intro c hc
  unfold normalize_dataframe
  rw [if_neg (by simp [h])]
  dsimp only
  apply mem_dfKeys_clean
  simp only [List.mem_cons, List.not_mem_nil, or_false] at hc
  rcases hc with hc | hc | hc | hc
  · exact mem_dfKeys_setCol _ _ _ _ (Or.inl (mem_dfKeys_setCol _ _ _ _
      (Or.inl (mem_dfKeys_setCol _ _ _ _ (Or.inl (mem_dfKeys_setCol _ _ _ _
        (Or.inr hc)))))))
  · exact mem_dfKeys_setCol _ _ _ _ (Or.inl (mem_dfKeys_setCol _ _ _ _
      (Or.inl (mem_dfKeys_setCol _ _ _ _ (Or.inr hc)))))
  · exact mem_dfKeys_setCol _ _ _ _ (Or.inl (mem_dfKeys_setCol _ _ _ _ (Or.inr hc)))
  · exact mem_dfKeys_setCol _ _ _ _ (Or.inr hc)

/-- Counterexample to C6 as stated: normalizing a concrete one-column,
one-row table appends `file_id`, not `record_id` — no `record_id` column is
in the output. -/
theorem claim_C6_counterexample :
    "record_id" ∉ dfKeys (normalize_dataframe id id id (fun _ => true) (fun _ => false)
      false id id (some "now") [("x", [some "1"])] "ASSESSMENT" [] "r1" "f1") := by
  decide

/-- Witness for the amended C6 at the same concrete table. -/
theorem claim_C6_witness :
    dfEmpty [("x", [some "1"])] = false ∧
    ∀ c ∈ ["region_id", "file_id", "ingest_timestamp", "source_table_type"],
      c ∈ dfKeys (normalize_dataframe id id id (fun _ => true) (fun _ => false)
        false id id (some "now") [("x", [some "1"])] "ASSESSMENT" [] "r1" "f1") :=
  ⟨by decide,
    claim_C6_metadata_columns id id id (fun _ => true) (fun _ => false)
      false id id (some "now") [("x", [some "1"])] "ASSESSMENT" [] "r1" "f1"
      (by decide)⟩

theorem any_key_iff (acc : List FeedbackTarget) (t : FeedbackTarget) :
    (acc.any fun u => targetKey u = targetKey t) = true ↔
      ∃ u ∈ acc, targetKey u = targetKey t := by
  simp [List.any_eq_true]

theorem dedupStep_inv {seen acc : List FeedbackTarget} {t : FeedbackTarget}
    (h : DedupInv seen acc) : DedupInv (seen ++ [t]) (dedupStep acc t) := by
  obtain ⟨hnd, hdom, hcom⟩ := h
  unfold dedupStep
  split
  · rename_i hany
    have hexists : ∃ u ∈ acc, targetKey u = targetKey t := (any_key_iff acc t).mp hany
    have hkey : ∀ u : FeedbackTarget,
        targetKey (if targetKey u = targetKey t ∧ u.relevance_score < t.relevance_score
          then t else u) = targetKey u := by
      intro u
      by_cases hc : targetKey u = targetKey t ∧ u.relevance_score < t.relevance_score
      · rw [if_pos hc]
        exact hc.1.symm
      · rw [if_neg hc]
    refine ⟨?_, ?_, ?_⟩
    · have hmk : (acc.map fun u =>
          if targetKey u = targetKey t ∧ u.relevance_score < t.relevance_score
          then t else u).map targetKey = acc.map targetKey := by
        rw [List.map_map]
        exact List.map_congr_left fun u _ => hkey u
      rw [hmk]
      exact hnd
    · intro x hx
      obtain ⟨u, hu, hgu⟩ := List.mem_map.mp hx
      by_cases hc : targetKey u = targetKey t ∧ u.relevance_score < t.relevance_score
      · rw [if_pos hc] at hgu
        refine ⟨?_, ?_⟩
        · rw [← hgu]
          exact List.mem_append_right _ (List.mem_singleton_self _)
        · intro v hv hkv
          rw [← hgu] at hkv ⊢
          rcases List.mem_append.mp hv with hv | hv
          · have hvu : targetKey v = targetKey u := hkv.trans hc.1.symm
            exact le_trans ((hdom u hu).2 v hv hvu) (le_of_lt hc.2)
          · exact le_of_eq (congrArg FeedbackTarget.relevance_score
              (List.mem_singleton.mp hv))
      · rw [if_neg hc] at hgu
        refine ⟨?_, ?_⟩
        · rw [← hgu]
          exact List.mem_append_left _ (hdom u hu).1
        · intro v hv hkv
          rw [← hgu] at hkv ⊢
          rcases List.mem_append.mp hv with hv | hv
          · exact (hdom u hu).2 v hv hkv
          · have hvt : v = t := List.mem_singleton.mp hv
            have hut : targetKey u = targetKey t :=
              (hkv.symm.trans (congrArg targetKey hvt))
            have hnl : ¬ u.relevance_score < t.relevance_score := fun hlt => hc ⟨hut, hlt⟩
            rw [hvt]
            exact not_lt.mp hnl
    · intro v hv
      rcases List.mem_append.mp hv with hv | hv
      · obtain ⟨x, hx, hkx⟩ := hcom v hv
        exact ⟨_, List.mem_map_of_mem _ hx, by rw [hkey x, hkx]⟩
      · have hvt : v = t := List.mem_singleton.mp hv
        obtain ⟨u, hu, hku⟩ := hexists
        exact ⟨_, List.mem_map_of_mem _ hu, by rw [hkey u, hku, hvt]⟩
  · rename_i hany
    have hnotin : ∀ u ∈ acc, targetKey u ≠ targetKey t := by
      intro u hu hc
      exact hany ((any_key_iff acc t).mpr ⟨u, hu, hc⟩)
    refine ⟨?_, ?_, ?_⟩
    · rw [List.map_append, List.nodup_append]
      refine ⟨hnd, by simp, ?_⟩
      intro k hk
      obtain ⟨u, hu, hku⟩ := List.mem_map.mp hk
      intro hkt
      exact hnotin u hu (hku.trans (List.mem_singleton.mp hkt))
    · intro x hx
      rcases List.mem_append.mp hx with hx | hx
      · refine ⟨List.mem_append_left _ (hdom x hx).1, ?_⟩
        intro v hv hkv
        rcases List.mem_append.mp hv with hv | hv
        · exact (hdom x hx).2 v hv hkv
        · have hvt : v = t := List.mem_singleton.mp hv
          exact absurd ((congrArg targetKey hvt).symm.trans hkv).symm (hnotin x hx)
      · have hxt : x = t := List.mem_singleton.mp hx
        refine ⟨?_, ?_⟩
        · rw [hxt]
          exact List.mem_append_right _ (List.mem_singleton_self _)
        · intro v hv hkv
          rw [hxt] at hkv ⊢
          rcases List.mem_append.mp hv with hv | hv
          · obtain ⟨y, hy, hky⟩ := hcom v hv
            exact absurd (hky.trans hkv) (hnotin y hy)
          · exact le_of_eq (congrArg FeedbackTarget.relevance_score
              (List.mem_singleton.mp hv))
    · intro v hv
      rcases List.mem_append.mp hv with hv | hv
      · obtain ⟨x, hx, hkx⟩ := hcom v hv
        exact ⟨x, List.mem_append_left _ hx, hkx⟩
      · have hvt : v = t := List.mem_singleton.mp hv
        exact ⟨t, List.mem_append_right _ (List.mem_singleton_self _),
          (congrArg targetKey hvt).symm⟩


theorem dedup_foldl_inv :
    ∀ (l : List FeedbackTarget) (seen acc : List FeedbackTarget),
      DedupInv seen acc → DedupInv (seen ++ l) (l.foldl dedupStep acc) := by
  intro l
  induction l with
  | nil => intro seen acc h; simpa using h
  | cons x t ih =>
      intro seen acc h
      rw [List.foldl_cons]
      have hstep := ih (seen ++ [x]) (dedupStep acc x) (dedupStep_inv h)
      simpa [List.append_assoc] using hstep

theorem combine_inv (tl te : List FeedbackTarget) :
    DedupInv (tl ++ te) (_combine_and_deduplicate_targets tl te) := by
  have h0 : DedupInv [] [] := ⟨by simp, by simp, by simp⟩
  have hres := dedup_foldl_inv (tl ++ te) [] [] h0
  simpa [_combine_and_deduplicate_targets] using hres

/-- C8: the free-form analyzer's target post-processing deduplicates by
`(target_type, target_id)` keeping the higher relevance score on collision,
sorts the survivors by relevance descending, and truncates to the cap.
Stated: the output has `min cap n` targets (`n` the number of deduplicated
candidates), is sorted by relevance descending, has pairwise distinct keys;
every output target is a deduplicated candidate, one of the input
candidates, and outscores every input candidate sharing its key; every
input candidate's key survives deduplication with a representative scoring
at least as high; and every deduplicated candidate is either in the output
or scores no more than every output target — so with a cap of 10 and 12
deduplicated candidates exactly the top 10 by relevance score are
output. -/
theorem claim_C8_dedup_sort_truncate (targets_llm targets_embedding : List FeedbackTarget)
    (cap : Nat) :
    (let dedup := _combine_and_deduplicate_targets targets_llm targets_embedding
    let out := _select_top_targets dedup cap
    out.length = min cap dedup.length ∧
    List.Sorted scoreGE out ∧
    ((out.map targetKey).Nodup) ∧
    (∀ t ∈ out, t ∈ dedup ∧ t ∈ targets_llm ++ targets_embedding ∧
      ∀ u ∈ targets_llm ++ targets_embedding,
        targetKey u = targetKey t → u.relevance_score ≤ t.relevance_score) ∧
    (∀ u ∈ targets_llm ++ targets_embedding, ∃ x ∈ dedup,
      targetKey x = targetKey u ∧ u.relevance_score ≤ x.relevance_score) ∧
    (∀ u ∈ dedup, u ∈ out ∨
      ∀ t ∈ out, u.relevance_score ≤ t.relevance_score)) := by
  obtain ⟨hnd, hdom, hcom⟩ := combine_inv targets_llm targets_embedding
  dsimp only
  refine ⟨?_, ?_, ?_, ?_, ?_, ?_⟩
  · unfold _select_top_targets
    rw [List.length_take, List.length_insertionSort]
  · unfold _select_top_targets
    exact List.Pairwise.sublist (List.take_sublist _ _)
      (List.sorted_insertionSort scoreGE _)
  · unfold _select_top_targets
    have hperm : List.Perm
        ((List.insertionSort scoreGE
          (_combine_and_deduplicate_targets targets_llm targets_embedding)).map targetKey)
        ((_combine_and_deduplicate_targets targets_llm targets_embedding).map targetKey) :=
      (List.perm_insertionSort scoreGE _).map targetKey
    have hnd2 := hperm.nodup_iff.mpr hnd
    rw [List.map_take]
    exact List.Nodup.sublist (List.take_sublist _ _) hnd2
  · intro t ht
    have htm : t ∈ _combine_and_deduplicate_targets targets_llm targets_embedding := by
      have hs : t ∈ List.insertionSort scoreGE
          (_combine_and_deduplicate_targets targets_llm targets_embedding) :=
        List.take_subset _ _ ht
      exact (List.mem_insertionSort scoreGE).mp hs
    exact ⟨htm, (hdom t htm).1, (hdom t htm).2⟩
  · intro u hu
    obtain ⟨x, hx, hkx⟩ := hcom u hu
    exact ⟨x, hx, hkx, (hdom x hx).2 u hu hkx.symm⟩
  · intro u hu
    unfold _select_top_targets
    have husort : u ∈ List.insertionSort scoreGE
        (_combine_and_deduplicate_targets targets_llm targets_embedding) :=
      (List.mem_insertionSort scoreGE).mpr hu
    have hsplit := List.take_append_drop cap
      (List.insertionSort scoreGE
        (_combine_and_deduplicate_targets targets_llm targets_embedding))
    have hmem : u ∈ (List.insertionSort scoreGE
          (_combine_and_deduplicate_targets targets_llm targets_embedding)).take cap ++
        (List.insertionSort scoreGE
          (_combine_and_deduplicate_targets targets_llm targets_embedding)).drop cap := by
      rw [hsplit]
      exact husort
    rcases List.mem_append.mp hmem with h | h
    · exact Or.inl h
    · right
      intro t ht
      have hsorted : List.Sorted scoreGE
          ((List.insertionSort scoreGE
            (_combine_and_deduplicate_targets targets_llm targets_embedding)).take cap ++
           (List.insertionSort scoreGE
            (_combine_and_deduplicate_targets targets_llm targets_embedding)).drop cap) := by
        rw [hsplit]
        exact List.sorted_insertionSort scoreGE _
      have hrel := (List.pairwise_append.mp hsorted).2.2
      exact hrel t ht u h

end EduScale
